import Mathlib

/-!
Verification of the EONET/GIBS map front-ends.

This file shallowly embeds the data-transforming core of the repository:
the event normalizer, category-key derivation and color palette, the query
builder, the tile URL builder, the fetch error wrapper and the presentation
state update (all from the `NasaMap` component), and `buildTileUrl` from
`NasaGibsMap.tsx`.  JavaScript strings are `String`, numbers in coordinates
are `Int` (the claims only involve integral coordinates), and ISO-8601
timestamps are parsed by an explicit model of the `Date` constructor on the
subset of formats the EONET feed uses.
-/

/-- One character of JavaScript `toLowerCase`, restricted to ASCII: the
category titles the feed produces are ASCII, where `toLowerCase` maps the
range 65–90 to 97–122 and fixes everything else. -/
def lowerAscii (c : Char) : Char :=
  if 65 ≤ c.toNat ∧ c.toNat ≤ 90 then
    Char.ofNat (c.toNat + 32)
  else c

/-- Characters removed by `replace(/\s+/g, '')`: the ASCII whitespace class,
by code point (32 space, 9 tab, 10 line feed, 11 vertical tab, 12 form feed,
13 carriage return). -/
def isJsWhitespace (c : Char) : Bool :=
  c.toNat == 32 || c.toNat == 9 || c.toNat == 10 || c.toNat == 11 || c.toNat == 12 ||
    c.toNat == 13

/-- The function `normalizeCategoryKey` from the `NasaMap` component: lowercase the title,
then delete whitespace, parentheses and slashes (the three `replace` calls,
in source order; code points 40 `(`, 41 `)`, 47 `/`).  Replacing every match
of a character class by the empty string is deletion of those characters. -/
def normalizeCategoryKey (title : String) : String :=
  let lowered := title.toList.map lowerAscii
  let noWs := lowered.filter (fun c => !(isJsWhitespace c))
  let noParen := noWs.filter (fun c => !(c.toNat == 40 || c.toNat == 41))
  let noSlash := noParen.filter (fun c => !(c.toNat == 47))
  String.mk noSlash

/-- The `CATEGORY_COLORS` record, as an association list in source order. -/
def CATEGORY_COLORS : List (String × String) :=
  [("wildfires", "#ff7b7b"),
   ("severeStorms", "#ffd166"),
   ("volcanoes", "#f94144"),
   ("seaLakeIce", "#90e0ef"),
   ("snow", "#a8dadc"),
   ("dustHaze", "#e9c46a"),
   ("earthquakes", "#f3722c"),
   ("floods", "#43aa8b"),
   ("manmade", "#bdb2ff"),
   ("waterColor", "#48cae4"),
   ("landslides", "#8ecae6")]

/-- The lookup `CATEGORY_COLORS[categoryKey] || '#7aa2ff'`: the palette lookup with the
default color.  Every palette value is a non-empty string, so the JS falsy
check coincides with key absence. -/
def colorForKey (key : String) : String :=
  (CATEGORY_COLORS.lookup key).getD "#7aa2ff"

theorem toNat_lowerAscii_pos (c : Char) (h : 65 ≤ c.toNat ∧ c.toNat ≤ 90) :
    (lowerAscii c).toNat = c.toNat + 32 := by
  simp only [lowerAscii, if_pos h]
  have hv : (c.toNat + 32).isValidChar := Or.inl (by omega)
  rw [Char.ofNat, dif_pos hv]
  simp [Char.ofNatAux, Char.toNat, UInt32.toNat, BitVec.toNat_ofNatLt]

theorem lowerAscii_not_upper (c : Char) :
    ¬ (65 ≤ (lowerAscii c).toNat ∧ (lowerAscii c).toNat ≤ 90) := by
  by_cases h : 65 ≤ c.toNat ∧ c.toNat ≤ 90
  · rw [toNat_lowerAscii_pos c h]; omega
  · simp only [lowerAscii, if_neg h]; omega

theorem lowerAscii_idem (c : Char) : lowerAscii (lowerAscii c) = lowerAscii c := by
  rw [lowerAscii, if_neg (lowerAscii_not_upper c)]

theorem map_lowerAscii_self (l : List Char)
    (h : ∀ c ∈ l, lowerAscii c = c) : l.map lowerAscii = l := by
  induction l with
  | nil => rfl
  | cons a t ih =>
      simp only [List.map_cons, List.cons.injEq]
      exact ⟨h a (List.mem_cons_self a t), ih (fun c hc => h c (List.mem_cons_of_mem a hc))⟩

theorem normalizeCategoryKey_idem (s : String) :
    normalizeCategoryKey (normalizeCategoryKey s) = normalizeCategoryKey s := by
  simp only [normalizeCategoryKey]
  have hmk : ∀ l : List Char, (String.mk l).toList = l := fun l => rfl
  rw [hmk]
  rw [map_lowerAscii_self]
  · congr 1
    rw [List.filter_eq_self.mpr, List.filter_eq_self.mpr, List.filter_eq_self.mpr] <;>
      (intro a ha; simp only [List.mem_filter] at ha; tauto)
  · intro c hc
    have hc2 := List.mem_of_mem_filter (List.mem_of_mem_filter hc)
    obtain ⟨a, _, rfl⟩ := List.mem_map.mp (List.mem_of_mem_filter hc2)
    exact lowerAscii_idem a

/-- Component values of an ISO-8601 timestamp, as recovered by the platform
`Date` constructor from the feed's date strings. -/
structure ParsedDate where
  year : Nat
  month : Nat
  day : Nat
  hour : Nat
  minute : Nat
  second : Nat
deriving DecidableEq, Repr

/-- Numeric value of a decimal digit character. -/
def digitVal (c : Char) : Nat := c.toNat - 48

def num2 (a b : Char) : Nat := 10 * digitVal a + digitVal b

def num4 (a b c d : Char) : Nat :=
  1000 * digitVal a + 100 * digitVal b + 10 * digitVal c + digitVal d

/-- Basic calendar-field validation done by the `Date` constructor: out-of-range
fields make an Invalid Date. -/
def mkValidDate (y mo d h mi se : Nat) : Option ParsedDate :=
  if 1 ≤ mo ∧ mo ≤ 12 ∧ 1 ≤ d ∧ d ≤ 31 ∧ h ≤ 23 ∧ mi ≤ 59 ∧ se ≤ 59 then
    some ⟨y, mo, d, h, mi, se⟩
  else none

/-- Model of `new Date(s)` on the two ISO-8601 shapes the EONET feed carries
(`yyyy-MM-dd` and `yyyy-MM-ddTHH:mm:ssZ`); every other string is an Invalid
Date, which date-fns `format` rejects by throwing. -/
def parseIsoDate (s : String) : Option ParsedDate :=
  match s.toList with
  | [y1, y2, y3, y4, '-', o1, o2, '-', d1, d2] =>
      if [y1, y2, y3, y4, o1, o2, d1, d2].all Char.isDigit then
        mkValidDate (num4 y1 y2 y3 y4) (num2 o1 o2) (num2 d1 d2) 0 0 0
      else none
  | [y1, y2, y3, y4, '-', o1, o2, '-', d1, d2, 'T', h1, h2, ':', i1, i2, ':', e1, e2, 'Z'] =>
      if [y1, y2, y3, y4, o1, o2, d1, d2, h1, h2, i1, i2, e1, e2].all Char.isDigit then
        mkValidDate (num4 y1 y2 y3 y4) (num2 o1 o2) (num2 d1 d2) (num2 h1 h2)
          (num2 i1 i2) (num2 e1 e2)
      else none
  | _ => none

/-- Chronological key of a parsed timestamp: lexicographic in its fields. -/
def dateKey (d : ParsedDate) : Nat :=
  ((((d.year * 100 + d.month) * 100 + d.day) * 100 + d.hour) * 100 + d.minute) * 100 + d.second

/-- Two-digit zero padding, as date-fns `MM`, `dd`, `HH`, `mm` tokens. -/
def pad2 (n : Nat) : String := if n < 10 then "0" ++ toString n else toString n

/-- Four-digit zero padding, as the date-fns `yyyy` token. -/
def pad4 (n : Nat) : String :=
  if n < 10 then "000" ++ toString n
  else if n < 100 then "00" ++ toString n
  else if n < 1000 then "0" ++ toString n
  else toString n

/-- date-fns `format(d, 'yyyy-MM-dd HH:mm')`. -/
def formatDateDisplay (d : ParsedDate) : String :=
  pad4 d.year ++ "-" ++ pad2 d.month ++ "-" ++ pad2 d.day ++ " " ++
    pad2 d.hour ++ ":" ++ pad2 d.minute

/-- A calendar date held in the filter controls. -/
structure CalDate where
  year : Nat
  month : Nat
  day : Nat
deriving DecidableEq, Repr

/-- date-fns `format(d, 'yyyy-MM-dd')` on a filter date. -/
def formatYmd (d : CalDate) : String :=
  pad4 d.year ++ "-" ++ pad2 d.month ++ "-" ++ pad2 d.day

/-- The `type` discriminator of an EONET geometry. -/
inductive GeomType where
  | point
  | polygon
deriving DecidableEq, Repr

/-- The `coordinates` payload: `number[]` for points, `number[][][]` for
polygons.  The claims only involve integral coordinate values, so numbers are
embedded as `Int`. -/
inductive GeoCoords where
  | pt (nums : List Int)
  | poly (rings : List (List (List Int)))
deriving DecidableEq, Repr

/-- The `EonetGeometry` interface (the optional magnitude fields play no part
in any claim and are omitted).  `coordinates := none` embeds a record whose
`coordinates` JSON field is absent or not an array, the case the normalizer
tests with `Array.isArray`. -/
structure EonetGeometry where
  date : String
  type : GeomType
  coordinates : Option GeoCoords
deriving DecidableEq, Repr

/-- One entry of an event's `categories` list. -/
structure EonetCategoryRef where
  id : Nat
  title : String
deriving DecidableEq, Repr

/-- The `EonetEvent` interface (the optional `closed` field plays no part in
any claim and is omitted). -/
structure EonetEvent where
  id : String
  title : String
  categories : List EonetCategoryRef
  geometry : List EonetGeometry
deriving DecidableEq, Repr

/-- The `EventsResponse` interface. -/
structure EventsResponse where
  events : List EonetEvent
deriving DecidableEq, Repr

/-- One GeoJSON feature as built by the normalizer, flattened: `id`, `title`
and the property bag together with the point coordinates. -/
structure RenderableFeature where
  id : String
  title : String
  category : String
  categoryKey : String
  color : String
  latestDate : String
  coordinates : GeoCoords
deriving DecidableEq, Repr

/-- The predicate of `find(g => g.type === 'Point')`. -/
def isPointGeom (g : EonetGeometry) : Bool := decide (g.type = GeomType.point)

/-- The expression `ev.categories[0]?.title || 'Unknown'`: the first category's title, with
the JS falsy fallback (an absent first category, or an empty title, both give
the literal `Unknown`). -/
def primaryCategoryTitle (ev : EonetEvent) : String :=
  match ev.categories.head? with
  | some c => if c.title = "" then "Unknown" else c.title
  | none => "Unknown"

/-- The feature object literal the normalizer returns for a representable
event, given the selected point's coordinates and parsed date. -/
def mkFeature (ev : EonetEvent) (coord : GeoCoords) (d : ParsedDate) : RenderableFeature :=
  let cat := primaryCategoryTitle ev
  let categoryKey := normalizeCategoryKey cat
  { id := ev.id
    title := ev.title
    category := cat
    categoryKey := categoryKey
    color := colorForKey categoryKey
    latestDate := formatDateDisplay d
    coordinates := coord }

/-- One step of `events.flatMap`: `[...ev.geometry].reverse().find(...)` picks
the last Point-typed entry in the given sequence order; a missing `Array`
coordinates field yields `[]`; `format(new Date(lastPoint.date), ...)` throws
a `RangeError` with message `Invalid time value` when the date does not parse,
embedded as the `error` branch. -/
def eventToFeatures (ev : EonetEvent) : Except String (List RenderableFeature) :=
  match ev.geometry.reverse.find? isPointGeom with
  | none => Except.ok []
  | some lastPoint =>
      match lastPoint.coordinates with
      | none => Except.ok []
      | some coord =>
          match parseIsoDate lastPoint.date with
          | none => Except.error "Invalid time value"
          | some d => Except.ok [mkFeature ev coord d]

/-- The call `events.flatMap((ev) => ...)`: elements are processed in order and their
per-event feature lists concatenated; an exception thrown while processing any
element aborts the whole `flatMap` and propagates to the promise's `catch`. -/
def normalizeEvents : List EonetEvent → Except String (List RenderableFeature)
  | [] => Except.ok []
  | ev :: rest =>
      match eventToFeatures ev with
      | Except.error e => Except.error e
      | Except.ok fs =>
          match normalizeEvents rest with
          | Except.error e => Except.error e
          | Except.ok later => Except.ok (fs ++ later)

/-- An event is representable exactly when its positionally last Point-typed
geometry exists and carries an array `coordinates` field. -/
def representable (ev : EonetEvent) : Bool :=
  match ev.geometry.reverse.find? isPointGeom with
  | some g => g.coordinates.isSome
  | none => false

/-- Chronological key of a geometry entry, for comparing entry dates. -/
def dateKeyOf (g : EonetGeometry) : Nat :=
  ((parseIsoDate g.date).map dateKey).getD 0

/-- Spec-side definition, following the claim's words for comparison with the
code: the Point-typed geometry entry whose date is the most recent, over the
geometry sequence treated as an unordered set (earliest such maximum wins;
any tie-break choice suffices for the claims). -/
def specLatestPointByDate (ev : EonetEvent) : Option EonetGeometry :=
  (ev.geometry.filter isPointGeom).foldl
    (fun acc g =>
      match acc with
      | none => some g
      | some b => if dateKeyOf b < dateKeyOf g then some g else some b)
    none

/-- The `EONET_BASE` constant. -/
def EONET_BASE : String := "https://eonet.gsfc.nasa.gov/api/v3"

/-- The filter state the query builder reads: the two range dates and the
selected category id (the empty string when the `Todas` option is chosen).
The source field named `end` is embedded as `endDate` (`end` is reserved).
The fixed `status=open` is set unconditionally by the builder itself. -/
structure FilterState where
  start : CalDate
  endDate : CalDate
  selectedCategory : String
deriving DecidableEq, Repr

/-- The `URLSearchParams` built in `queryUrl`, as the ordered key-value list
its `set` calls produce: `status`, `start`, `end`, conditionally `category`,
then `limit`.  `start` and `end` hold `Date` objects, which are always truthy,
so both guards pass; the `category` guard is the JS truthiness of the selected
category string, i.e. non-emptiness. -/
def queryParams (fs : FilterState) : List (String × String) :=
  [("status", "open")] ++
    [("start", formatYmd fs.start)] ++
    [("end", formatYmd fs.endDate)] ++
    (if fs.selectedCategory = "" then [] else [("category", fs.selectedCategory)]) ++
    [("limit", "250")]

/-- The rendering `URLSearchParams.toString()`: `k=v` pairs joined by `&`.  Every character
this app puts into a parameter is URL-safe (letters, digits, `-`), so
percent-encoding is the identity here. -/
def encodeParams (ps : List (String × String)) : String :=
  String.intercalate "&" (ps.map (fun p => p.1 ++ "=" ++ p.2))

/-- The `queryUrl` memo: the events endpoint with the encoded parameters. -/
def queryUrl (fs : FilterState) : String :=
  EONET_BASE ++ "/events?" ++ encodeParams (queryParams fs)

/-- The `GIBS_ENDPOINT` constant from `NasaGibsMap.tsx`. -/
def GIBS_ENDPOINT : String := "https://gibs.earthdata.nasa.gov/wmts/epsg3857/best/wmts.cgi"

/-- The function `buildTileUrl` from `NasaGibsMap.tsx`: the WMTS template with the layer
and date substituted and the per-tile placeholders left literal. -/
def buildTileUrl (layer : String) (date : String) : String :=
  GIBS_ENDPOINT ++ "?service=WMTS&request=GetTile&version=1.0.0&layer=" ++ layer ++
    "&style=default&tilematrixset=GoogleMapsCompatible_Level&format=image%2Fjpeg&time=" ++
    date ++ "&tilematrix={z}&tilerow={y}&tilecol={x}"

/-- What the transport hands `fetchJson`: either a rejected `fetch` promise
(network failure) or a response with its HTTP status and body. -/
inductive HttpResult where
  | netError (msg : String)
  | response (status : Nat) (body : String)
deriving DecidableEq, Repr

/-- The `fetchJson` helper: a non-ok status (`res.ok` is 200–299) throws
`HTTP <status>`; otherwise the body is JSON-parsed, a failure of which rejects
with the parser's message.  The JSON parser itself is external, so it is a
parameter. -/
def fetchJson (parseJson : String → Option EventsResponse) (r : HttpResult) :
    Except String EventsResponse :=
  match r with
  | HttpResult.netError msg => Except.error msg
  | HttpResult.response status body =>
      if 200 ≤ status ∧ status ≤ 299 then
        match parseJson body with
        | some v => Except.ok v
        | none => Except.error "Unexpected end of JSON input"
      else Except.error ("HTTP " ++ toString status)

/-- A bounding box, as `LngLatBounds` accumulates it. -/
structure BBox where
  minLng : Int
  maxLng : Int
  minLat : Int
  maxLat : Int
deriving DecidableEq, Repr

/-- The `(lng, lat)` pair `bounds.extend(f.geometry.coordinates as [number,
number])` reads: the first two entries of a point coordinate array (EONET
point coordinates always carry both; shorter or polygon payloads are embedded
as zeros, mirroring that the cast is unchecked). -/
def lngLatOf : GeoCoords → Int × Int
  | GeoCoords.pt (lon :: lat :: _) => (lon, lat)
  | GeoCoords.pt [lon] => (lon, 0)
  | GeoCoords.pt [] => (0, 0)
  | GeoCoords.poly _ => (0, 0)

/-- One `bounds.extend(p)` step. -/
def extendBounds (b : BBox) (p : Int × Int) : BBox :=
  ⟨min b.minLng p.1, max b.maxLng p.1, min b.minLat p.2, max b.maxLat p.2⟩

/-- The bounds of a coordinate list: `new LngLatBounds()` extended by every
entry; empty input gives no box. -/
def boundsOfCoords : List (Int × Int) → Option BBox
  | [] => none
  | p :: ps => some (ps.foldl extendBounds ⟨p.1, p.1, p.2, p.2⟩)

/-- The map viewport: untouched since mount, or fitted to a box by
`fitBounds(bounds, { padding, duration })`. -/
inductive Viewport where
  | initial
  | fitted (bounds : BBox) (padding : Nat) (duration : Nat)
deriving DecidableEq, Repr

/-- The component state the fetch effect mutates: the GeoJSON source contents,
the `eventCount`, `error` and `loading` hooks, and the viewport. -/
structure MapState where
  sourceFeatures : List RenderableFeature
  eventCount : Nat
  errorMsg : Option String
  loading : Bool
  viewport : Viewport
deriving DecidableEq, Repr

/-- Resolution of the events fetch promise chain: an error (from the transport,
from JSON parsing, or thrown while converting events inside `then`) reaches
`catch`, which sets `error` to `err.message || 'Falha ao carregar dados'` and
touches nothing else; on a fully successful conversion the source is replaced
(`setData`), the count updated, and the viewport fitted (padding 40, duration
800) exactly when the feature set is non-empty.  `finally` clears `loading`. -/
def resolveFetch (st : MapState) (outcome : Except String EventsResponse) : MapState :=
  match outcome with
  | Except.error msg =>
      { st with errorMsg := some (if msg = "" then "Falha ao carregar dados" else msg),
                loading := false }
  | Except.ok resp =>
      match normalizeEvents resp.events with
      | Except.error msg =>
          { st with errorMsg := some (if msg = "" then "Falha ao carregar dados" else msg),
                    loading := false }
      | Except.ok features =>
          let st1 := { st with sourceFeatures := features, eventCount := features.length }
          let st2 :=
            if features.length > 0 then
              match boundsOfCoords (features.map (fun f => lngLatOf f.coordinates)) with
              | some b => { st1 with viewport := Viewport.fitted b 40 800 }
              | none => st1
            else st1
          { st2 with loading := false }

/-- Substring search on character lists: `sub` occurs somewhere in `l`. -/
def hasSubList : List Char → List Char → Bool
  | l@(_ :: t), sub => List.isPrefixOf sub l || hasSubList t sub
  | [], sub => sub.isEmpty

/-- String containment `s.includes(sub)`: `sub` occurs contiguously in `s`. -/
def containsStr (s sub : String) : Bool := hasSubList s.toList sub.toList

theorem hasSubList_append_right (a b sub : List Char)
    (h : hasSubList b sub = true) : hasSubList (a ++ b) sub = true := by
  induction a with
  | nil => simpa using h
  | cons x t ih => simp [hasSubList, ih]

theorem containsStr_append_right (a b sub : String)
    (h : containsStr b sub = true) : containsStr (a ++ b) sub = true := by
  simp only [containsStr] at h ⊢
  have hl : (a ++ b).toList = a.toList ++ b.toList := by
    cases a; cases b; rfl
  rw [hl]
  exact hasSubList_append_right _ _ _ h

/-- A character deleted by any of the three `replace` calls. -/
def strippedChar (c : Char) : Bool :=
  isJsWhitespace c || c.toNat == 40 || c.toNat == 41 || c.toNat == 47

theorem strippedChar_eq_false_of_ge_65 (c : Char) (h65 : 65 ≤ c.toNat) :
    strippedChar c = false := by
  simp only [strippedChar, isJsWhitespace, Bool.or_eq_false_iff, beq_eq_false_iff_ne, ne_eq]
  omega

theorem strippedChar_lowerAscii (c : Char) :
    strippedChar (lowerAscii c) = strippedChar c := by
  by_cases h : 65 ≤ c.toNat ∧ c.toNat ≤ 90
  · rw [strippedChar_eq_false_of_ge_65 _ (by rw [toNat_lowerAscii_pos c h]; omega),
      strippedChar_eq_false_of_ge_65 _ h.1]
  · rw [lowerAscii, if_neg h]

/-- The canonical content of a category title: the characters outside the
stripped set, case-folded.  Two titles that differ only in case, whitespace,
parentheses, or slashes have the same canonical content. -/
def canonKey (s : String) : List Char :=
  (s.toList.filter (fun c => !(strippedChar c))).map lowerAscii

theorem filter_map_comm_general {α : Type} (f : α → α) (p q : α → Bool)
    (hpq : ∀ a, p (f a) = q a) (l : List α) :
    (l.map f).filter p = (l.filter q).map f := by
  induction l with
  | nil => rfl
  | cons a t ih =>
      simp only [List.map_cons, List.filter_cons, hpq a]
      cases q a <;> simp [ih]

theorem normalizeCategoryKey_eq_canon (s : String) :
    normalizeCategoryKey s = String.mk (canonKey s) := by
  simp only [normalizeCategoryKey, canonKey]
  congr 1
  rw [List.filter_filter, List.filter_filter]
  rw [List.filter_congr (l := s.toList.map lowerAscii)
      (q := fun c => !(strippedChar c)) ?_]
  · exact filter_map_comm_general lowerAscii _ _
      (fun a => by rw [strippedChar_lowerAscii]) s.toList
  · intro a _
    cases h1 : isJsWhitespace a <;> cases h2 : (a.toNat == 40) <;>
      cases h3 : (a.toNat == 41) <;> cases h4 : (a.toNat == 47) <;>
      simp [strippedChar, h1, h2, h3, h4]

theorem normalizeCategoryKey_chars_not_upper (s : String) :
    ∀ c ∈ (normalizeCategoryKey s).toList, ¬ (65 ≤ c.toNat ∧ c.toNat ≤ 90) := by
  intro c hc
  rw [normalizeCategoryKey_eq_canon] at hc
  have hc2 : c ∈ canonKey s := hc
  obtain ⟨a, _, rfl⟩ := List.mem_map.mp hc2
  exact lowerAscii_not_upper a

/-- An event whose two Point geometries are listed most-recent first, i.e. a
geometry sequence that is not sorted ascending by date. -/
def evC1 : EonetEvent :=
  { id := "EONET_C1", title := "Storm Alpha",
    categories := [⟨10, "Severe Storms"⟩],
    geometry :=
      [⟨"2024-01-15T00:00:00Z", GeomType.point, some (GeoCoords.pt [11, 21])⟩,
       ⟨"2024-01-01T00:00:00Z", GeomType.point, some (GeoCoords.pt [10, 20])⟩] }

/-- Claim C1, counterexample: on a geometry sequence that is not sorted by
date, the normalizer emits the coordinates of the positionally last Point
entry (here `[10, 20]`, dated 2024-01-01), which differ from the coordinates
of the Point entry whose date is the most recent (`[11, 21]`, dated
2024-01-15).  So the produced feature's coordinates do not equal the
most-recent-dated Point's coordinates. -/
theorem c1_counterexample_unsorted_geometry :
    (eventToFeatures evC1).toOption.map (fun fs => fs.map (fun f => f.coordinates))
        = some [GeoCoords.pt [10, 20]]
      ∧ (specLatestPointByDate evC1).map (fun g => g.coordinates)
        = some (some (GeoCoords.pt [11, 21]))
      ∧ GeoCoords.pt [10, 20] ≠ GeoCoords.pt [11, 21] :=
  ⟨rfl, rfl, by decide⟩

/-- Claim C1, amended: for every RawEvent whose geometry sequence has at
least one Point-typed entry, the normalizer produces exactly one
RenderableFeature whose coordinates equal those of the Point entry occurring
last in the given sequence order (provided that entry has array coordinates
and a parseable date); this entry is the most-recent-dated Point only when
the sequence happens to be sorted ascending by date. -/
theorem c1_last_point_in_sequence_feature (ev : EonetEvent) (g : EonetGeometry)
    (c : GeoCoords) (d : ParsedDate)
    (h1 : ev.geometry.reverse.find? isPointGeom = some g)
    (h2 : g.coordinates = some c)
    (h3 : parseIsoDate g.date = some d) :
    eventToFeatures ev = Except.ok [mkFeature ev c d]
      ∧ (mkFeature ev c d).coordinates = c := by
  constructor
  · simp only [eventToFeatures, h1, h2, h3]
  · rfl

/-- Claim C1, witness: the amended statement instantiated on `evC1`. -/
theorem c1_last_point_in_sequence_feature_witness :
    eventToFeatures evC1
        = Except.ok [mkFeature evC1 (GeoCoords.pt [10, 20]) ⟨2024, 1, 1, 0, 0, 0⟩]
      ∧ (mkFeature evC1 (GeoCoords.pt [10, 20]) ⟨2024, 1, 1, 0, 0, 0⟩).coordinates
        = GeoCoords.pt [10, 20] :=
  c1_last_point_in_sequence_feature evC1
    ⟨"2024-01-01T00:00:00Z", GeomType.point, some (GeoCoords.pt [10, 20])⟩
    (GeoCoords.pt [10, 20]) ⟨2024, 1, 1, 0, 0, 0⟩ rfl rfl rfl

theorem normalizeEvents_insert_nil (l1 l2 : List EonetEvent) (ev : EonetEvent)
    (h : eventToFeatures ev = Except.ok []) :
    normalizeEvents (l1 ++ ev :: l2) = normalizeEvents (l1 ++ l2) := by
  induction l1 with
  | nil =>
      cases h2 : normalizeEvents l2 <;> simp [normalizeEvents, h, h2]
  | cons a t ih =>
      simp only [List.cons_append, normalizeEvents, List.append_eq]
      rw [ih]

theorem normalizeEvents_aborts (l1 l2 : List EonetEvent) (ev : EonetEvent)
    (fs0 : List RenderableFeature) (e : String)
    (hok : normalizeEvents l1 = Except.ok fs0)
    (herr : eventToFeatures ev = Except.error e) :
    normalizeEvents (l1 ++ ev :: l2) = Except.error e := by
  induction l1 generalizing fs0 with
  | nil => simp [normalizeEvents, herr]
  | cons a t ih =>
      cases h1 : eventToFeatures a with
      | error e2 => simp [normalizeEvents, h1] at hok
      | ok la =>
          cases h2 : normalizeEvents t with
          | error e2 => simp [normalizeEvents, h1, h2] at hok
          | ok lt =>
              simp only [List.cons_append, normalizeEvents, h1, List.append_eq]
              rw [ih lt h2]

/-- A well-formed event: one Point geometry with coordinates and a valid
date. -/
def evGood : EonetEvent :=
  { id := "EONET_GOOD", title := "Wildfire A",
    categories := [⟨8, "Wildfires"⟩],
    geometry := [⟨"2024-02-01T12:00:00Z", GeomType.point, some (GeoCoords.pt [30, 40])⟩] }

/-- An event whose selected Point has an unparseable date. -/
def evBadDate : EonetEvent :=
  { id := "EONET_BAD", title := "Storm B",
    categories := [⟨10, "Severe Storms"⟩],
    geometry := [⟨"not-a-date", GeomType.point, some (GeoCoords.pt [1, 2])⟩] }

/-- An event whose selected Point lacks an array coordinates field. -/
def evNoCoords : EonetEvent :=
  { id := "EONET_NC", title := "Flood C",
    categories := [⟨12, "Floods"⟩],
    geometry := [⟨"2024-02-03T00:00:00Z", GeomType.point, none⟩] }

/-- Claim C2, counterexample: a batch holding one well-formed event and one
event with an unparseable date does not produce a feature for the well-formed
event — the whole `flatMap` aborts with the thrown `Invalid time value`
error — although the well-formed event alone yields its feature. -/
theorem c2_counterexample_batch_abort :
    normalizeEvents [evGood, evBadDate] = Except.error "Invalid time value"
      ∧ (normalizeEvents [evGood]).toOption.map (fun fs => fs.map (fun f => f.id))
        = some ["EONET_GOOD"] :=
  ⟨rfl, rfl⟩

/-- Claim C2, amended: an event with missing (non-array) coordinates is
excluded from the output and does not disturb the rest of the batch; but an
event whose selected Point has an unparseable date throws, aborting the
whole batch: the normalizer then produces no features at all for that batch
and the error propagates (to the fetch `catch`). -/
theorem c2_malformed_event_handling :
    (∀ ev g, ev.geometry.reverse.find? isPointGeom = some g → g.coordinates = none →
        eventToFeatures ev = Except.ok [])
  ∧ (∀ l1 l2 ev, eventToFeatures ev = Except.ok [] →
        normalizeEvents (l1 ++ ev :: l2) = normalizeEvents (l1 ++ l2))
  ∧ (∀ ev g c, ev.geometry.reverse.find? isPointGeom = some g → g.coordinates = some c →
        parseIsoDate g.date = none → eventToFeatures ev = Except.error "Invalid time value")
  ∧ (∀ l1 l2 ev fs0 e, normalizeEvents l1 = Except.ok fs0 →
        eventToFeatures ev = Except.error e →
        normalizeEvents (l1 ++ ev :: l2) = Except.error e) := by
  refine ⟨?_, fun l1 l2 ev h => normalizeEvents_insert_nil l1 l2 ev h, ?_,
    fun l1 l2 ev fs0 e hok herr => normalizeEvents_aborts l1 l2 ev fs0 e hok herr⟩
  · intro ev g h1 h2
    simp only [eventToFeatures, h1, h2]
  · intro ev g c h1 h2 h3
    simp only [eventToFeatures, h1, h2, h3]

/-- Claim C2, witness: the amended statement instantiated on concrete
events. -/
theorem c2_malformed_event_handling_witness :
    eventToFeatures evNoCoords = Except.ok []
  ∧ normalizeEvents ([evGood] ++ evNoCoords :: [evGood]) = normalizeEvents ([evGood] ++ [evGood])
  ∧ eventToFeatures evBadDate = Except.error "Invalid time value"
  ∧ normalizeEvents ([evGood] ++ evBadDate :: []) = Except.error "Invalid time value" := by
  have h1 := c2_malformed_event_handling.1 evNoCoords
    ⟨"2024-02-03T00:00:00Z", GeomType.point, none⟩ rfl rfl
  have h3 := c2_malformed_event_handling.2.2.1 evBadDate
    ⟨"not-a-date", GeomType.point, some (GeoCoords.pt [1, 2])⟩ (GeoCoords.pt [1, 2]) rfl rfl rfl
  exact ⟨h1, c2_malformed_event_handling.2.1 [evGood] [evGood] evNoCoords h1, h3,
    c2_malformed_event_handling.2.2.2 [evGood] [] evBadDate
      ((normalizeEvents [evGood]).toOption.getD []) "Invalid time value" rfl h3⟩

/-- Claim C3: an event whose geometry entries are all Polygon-typed yields no
feature, by the silent filtering of the Point search — not by an error. -/
theorem c3_polygon_only_yields_no_feature (ev : EonetEvent)
    (h : ∀ g ∈ ev.geometry, g.type = GeomType.polygon) :
    eventToFeatures ev = Except.ok [] := by
  have hfind : ev.geometry.reverse.find? isPointGeom = none := by
    rw [List.find?_eq_none]
    intro g hg
    have hp := h g (List.mem_reverse.mp hg)
    simp [isPointGeom, hp]
  simp [eventToFeatures, hfind]

/-- A polygon-only event. -/
def evPoly : EonetEvent :=
  { id := "EONET_POLY", title := "Fire Perimeter",
    categories := [⟨8, "Wildfires"⟩],
    geometry := [⟨"2024-03-01T00:00:00Z", GeomType.polygon,
      some (GeoCoords.poly [[[0, 0], [1, 0], [1, 1]]])⟩] }

/-- Claim C3, witness: the polygon-only event `evPoly` yields no feature. -/
theorem c3_polygon_only_yields_no_feature_witness :
    eventToFeatures evPoly = Except.ok [] :=
  c3_polygon_only_yields_no_feature evPoly (by decide)

/-- Claim C4: category-key normalization is idempotent; the three titles of
the claim all normalize to `severestorms`; two titles with the same canonical
content (equal after deleting whitespace, parentheses and slashes and
case-folding — i.e. differing only in case or stripped characters) normalize
identically; and the function is a total Lean function, hence pure and
total. -/
theorem c4_normalize_category_key_idempotent :
    (∀ s, normalizeCategoryKey (normalizeCategoryKey s) = normalizeCategoryKey s)
  ∧ normalizeCategoryKey "Severe Storms" = "severestorms"
  ∧ normalizeCategoryKey "severestorms" = "severestorms"
  ∧ normalizeCategoryKey "Severe   Storms" = "severestorms"
  ∧ (∀ s t, canonKey s = canonKey t → normalizeCategoryKey s = normalizeCategoryKey t) := by
  refine ⟨normalizeCategoryKey_idem, by decide, by decide, by decide, ?_⟩
  intro s t h
  rw [normalizeCategoryKey_eq_canon, normalizeCategoryKey_eq_canon, h]

/-- Claim C4, witness: two titles differing only in case, a slash, parentheses
and whitespace normalize identically. -/
theorem c4_normalize_category_key_idempotent_witness :
    normalizeCategoryKey "Severe/Storms" = normalizeCategoryKey "(SEVERE) STORMS" :=
  c4_normalize_category_key_idempotent.2.2.2.2 "Severe/Storms" "(SEVERE) STORMS" (by decide)

theorem normalizeCategoryKey_ne_of_upper_mem (s t : String) (c : Char)
    (hc : c ∈ t.toList) (hcu : 65 ≤ c.toNat ∧ c.toNat ≤ 90) :
    normalizeCategoryKey s ≠ t := by
  intro he
  exact normalizeCategoryKey_chars_not_upper s c (he ▸ hc) hcu

/-- Claim C10: normalized category keys contain no uppercase letter, so they
can never equal the camelCase palette keys `severeStorms`, `seaLakeIce`,
`dustHaze` or `waterColor`; any title normalizing to the all-lowercase form
of one of those multi-word categories therefore gets the fallback color
`#7aa2ff` from the palette lookup. -/
theorem c10_palette_key_case_mismatch :
    (∀ s, ∀ c ∈ (normalizeCategoryKey s).toList, ¬ (65 ≤ c.toNat ∧ c.toNat ≤ 90))
  ∧ (∀ s, normalizeCategoryKey s ≠ "severeStorms" ∧ normalizeCategoryKey s ≠ "seaLakeIce"
        ∧ normalizeCategoryKey s ≠ "dustHaze" ∧ normalizeCategoryKey s ≠ "waterColor")
  ∧ (∀ s, (normalizeCategoryKey s = "severestorms" ∨ normalizeCategoryKey s = "sealakeice"
        ∨ normalizeCategoryKey s = "dusthaze" ∨ normalizeCategoryKey s = "watercolor") →
        colorForKey (normalizeCategoryKey s) = "#7aa2ff")
  ∧ normalizeCategoryKey "Severe Storms" = "severestorms" := by
  refine ⟨normalizeCategoryKey_chars_not_upper, ?_, ?_, by decide⟩
  · intro s
    exact ⟨normalizeCategoryKey_ne_of_upper_mem s _ 'S' (by decide) (by decide),
      normalizeCategoryKey_ne_of_upper_mem s _ 'L' (by decide) (by decide),
      normalizeCategoryKey_ne_of_upper_mem s _ 'H' (by decide) (by decide),
      normalizeCategoryKey_ne_of_upper_mem s _ 'C' (by decide) (by decide)⟩
  · intro s h
    rcases h with h | h | h | h <;> rw [h] <;> rfl

/-- Claim C10, witness: the title `Severe Storms` gets the fallback color. -/
theorem c10_palette_key_case_mismatch_witness :
    colorForKey (normalizeCategoryKey "Severe Storms") = "#7aa2ff" :=
  c10_palette_key_case_mismatch.2.2.1 "Severe Storms" (Or.inl (by decide))

theorem eventToFeatures_ids (ev : EonetEvent) (l : List RenderableFeature)
    (h : eventToFeatures ev = Except.ok l) :
    l.map (fun f => f.id) = if representable ev then [ev.id] else [] := by
  cases hf : ev.geometry.reverse.find? isPointGeom with
  | none =>
      simp only [eventToFeatures, hf, Except.ok.injEq] at h
      subst h
      simp [representable, hf]
  | some g =>
      cases hc : g.coordinates with
      | none =>
          simp only [eventToFeatures, hf, hc, Except.ok.injEq] at h
          subst h
          simp [representable, hf, hc]
      | some c =>
          cases hp : parseIsoDate g.date with
          | none =>
              simp only [eventToFeatures, hf, hc, hp] at h
              exact absurd h (by simp)
          | some d =>
              simp only [eventToFeatures, hf, hc, hp, Except.ok.injEq] at h
              subst h
              simp [representable, hf, hc, mkFeature]

/-- Claim C9: when a batch normalizes without error, the produced feature
sequence carries the events' ids in input order, restricted to the
representable events — order is preserved, and since `filter` and `map` keep
multiplicity, duplicate events each produce their own feature (no
deduplication by id). -/
theorem c9_order_preserving_no_dedup (evs : List EonetEvent) (fs : List RenderableFeature)
    (h : normalizeEvents evs = Except.ok fs) :
    fs.map (fun f => f.id) = (evs.filter representable).map (fun e => e.id) := by
  induction evs generalizing fs with
  | nil =>
      simp only [normalizeEvents, Except.ok.injEq] at h
      subst h
      rfl
  | cons ev rest ih =>
      cases h1 : eventToFeatures ev with
      | error e => simp [normalizeEvents, h1] at h
      | ok l =>
          cases h2 : normalizeEvents rest with
          | error e => simp [normalizeEvents, h1, h2] at h
          | ok later =>
              simp only [normalizeEvents, h1, h2, Except.ok.injEq] at h
              subst h
              rw [List.map_append, eventToFeatures_ids ev l h1, ih later h2]
              cases hr : representable ev <;> simp [List.filter_cons, hr]

/-- A representable event, used twice in one batch to exhibit duplicate
ids. -/
def evDup : EonetEvent :=
  { id := "EONET_DUP", title := "Quake",
    categories := [⟨16, "Earthquakes"⟩],
    geometry := [⟨"2024-04-05T01:02:03Z", GeomType.point, some (GeoCoords.pt [5, 6])⟩] }

/-- Claim C9, witness: a batch holding the same event twice produces the id
sequence with the duplicate kept, in order. -/
theorem c9_order_preserving_no_dedup_witness :
    ((normalizeEvents [evDup, evDup]).toOption.getD []).map (fun f => f.id)
      = (List.filter representable [evDup, evDup]).map (fun e => e.id) :=
  c9_order_preserving_no_dedup [evDup, evDup] _ rfl

/-- The filter state of the claim's scenario: January 2024 range, no category
selected. -/
def fsC5 : FilterState := ⟨⟨2024, 1, 1⟩, ⟨2024, 1, 31⟩, ""⟩

/-- The same range with the category id `8` selected. -/
def fsC5cat : FilterState := ⟨⟨2024, 1, 1⟩, ⟨2024, 1, 31⟩, "8"⟩

set_option maxRecDepth 16384 in
/-- Claim C5: the scenario's query string holds the expected
`status`/`start`/`end`/`limit` run and no `category` text at all; in general
the `category` parameter is present in the built parameter list exactly when
the selected category is non-empty. -/
theorem c5_query_builder_category_omission :
    containsStr (queryUrl fsC5) "status=open&start=2024-01-01&end=2024-01-31&limit=250" = true
  ∧ containsStr (queryUrl fsC5) "category" = false
  ∧ (∀ fs : FilterState, "category" ∈ (queryParams fs).map Prod.fst ↔ fs.selectedCategory ≠ "") := by
  refine ⟨by decide, by decide, ?_⟩
  intro fs
  by_cases h : fs.selectedCategory = "" <;> simp [queryParams, h]

/-- Claim C5, witness: with category `8` selected the parameter list carries
`category`. -/
theorem c5_query_builder_category_omission_witness :
    "category" ∈ (queryParams fsC5cat).map Prod.fst :=
  (c5_query_builder_category_omission.2.2 fsC5cat).mpr (by decide)

set_option maxRecDepth 16384 in
/-- Claim C6: the tile URL built for the VIIRS layer and 2024-06-01 holds the
expected `layer=` and `time=` texts and the literal `tilematrix={z}`,
`tilerow={y}`, `tilecol={x}` placeholders; for every layer and date the three
placeholders stay literally in the produced URL (and `buildTileUrl` is a
total Lean function, hence pure and total). -/
theorem c6_build_tile_url_template :
    containsStr (buildTileUrl "VIIRS_SNPP_CorrectedReflectance_TrueColor" "2024-06-01")
        "layer=VIIRS_SNPP_CorrectedReflectance_TrueColor" = true
  ∧ containsStr (buildTileUrl "VIIRS_SNPP_CorrectedReflectance_TrueColor" "2024-06-01")
        "time=2024-06-01" = true
  ∧ containsStr (buildTileUrl "VIIRS_SNPP_CorrectedReflectance_TrueColor" "2024-06-01")
        "tilematrix={z}&tilerow={y}&tilecol={x}" = true
  ∧ (∀ layer date, containsStr (buildTileUrl layer date) "{z}" = true
        ∧ containsStr (buildTileUrl layer date) "{y}" = true
        ∧ containsStr (buildTileUrl layer date) "{x}" = true) := by
  refine ⟨by decide, by decide, by decide, ?_⟩
  intro layer date
  exact ⟨containsStr_append_right _ _ _ (by decide),
    containsStr_append_right _ _ _ (by decide),
    containsStr_append_right _ _ _ (by decide)⟩

/-- A JSON parser that rejects every body, standing in for a parse failure. -/
def pNone : String → Option EventsResponse := fun _ => none

/-- A state with one feature already displayed, mid-load. -/
def stW : MapState :=
  { sourceFeatures := [mkFeature evGood (GeoCoords.pt [30, 40]) ⟨2024, 2, 1, 12, 0, 0⟩],
    eventCount := 1, errorMsg := none, loading := true, viewport := Viewport.initial }

/-- Claim C7: every rejected fetch — network error, non-2xx status (which
`fetchJson` turns into `HTTP <status>`), or JSON parse failure — reaches the
error path, which sets the short error message and leaves the displayed
features, and the viewport, exactly as they were. -/
theorem c7_error_path_preserves_data :
    (∀ st msg, (resolveFetch st (Except.error msg)).sourceFeatures = st.sourceFeatures
        ∧ (resolveFetch st (Except.error msg)).viewport = st.viewport
        ∧ (resolveFetch st (Except.error msg)).errorMsg
            = some (if msg = "" then "Falha ao carregar dados" else msg))
  ∧ (∀ p status body, ¬ (200 ≤ status ∧ status ≤ 299) →
        fetchJson p (HttpResult.response status body)
          = Except.error ("HTTP " ++ toString status))
  ∧ (∀ p status body, 200 ≤ status → status ≤ 299 → p body = none →
        fetchJson p (HttpResult.response status body)
          = Except.error "Unexpected end of JSON input")
  ∧ (∀ p msg, fetchJson p (HttpResult.netError msg) = Except.error msg) := by
  refine ⟨fun st msg => ⟨rfl, rfl, rfl⟩, ?_, ?_, fun p msg => rfl⟩
  · intro p status body h
    simp [fetchJson, h]
  · intro p status body h1 h2 hp
    simp [fetchJson, h1, h2, hp]

/-- Claim C7, witness: a 404, a parse failure, and the untouched features on
the error path, at concrete inputs. -/
theorem c7_error_path_preserves_data_witness :
    fetchJson pNone (HttpResult.response 404 "x") = Except.error "HTTP 404"
  ∧ fetchJson pNone (HttpResult.response 200 "x") = Except.error "Unexpected end of JSON input"
  ∧ (resolveFetch stW (Except.error "HTTP 404")).sourceFeatures = stW.sourceFeatures :=
  ⟨c7_error_path_preserves_data.2.1 pNone 404 "x" (by decide),
   c7_error_path_preserves_data.2.2.1 pNone 200 "x" (by decide) (by decide) rfl,
   (c7_error_path_preserves_data.1 stW "HTTP 404").1⟩

/-- Claim C8, amended: on every successful fetch whose batch converts without
error, the data source is fully replaced by the new feature set and the count
updated; a non-empty set additionally fits the viewport to the bounding box
of all feature coordinates with an animation (padding 40, duration 800 ms),
while an empty set leaves the viewport unchanged.  (A successful fetch whose
batch throws during conversion takes the error path instead — see the
counterexample.) -/
theorem c8_success_replaces_and_fits (st : MapState) (resp : EventsResponse)
    (features : List RenderableFeature)
    (h : normalizeEvents resp.events = Except.ok features) :
    (resolveFetch st (Except.ok resp)).sourceFeatures = features
  ∧ (resolveFetch st (Except.ok resp)).eventCount = features.length
  ∧ (features ≠ [] →
        (resolveFetch st (Except.ok resp)).viewport
          = Viewport.fitted
              ((boundsOfCoords (features.map (fun f => lngLatOf f.coordinates))).getD
                ⟨0, 0, 0, 0⟩) 40 800)
  ∧ (features = [] → (resolveFetch st (Except.ok resp)).viewport = st.viewport) := by
  cases features with
  | nil => simp [resolveFetch, h]
  | cons f t =>
      refine ⟨?_, ?_, fun _ => ?_, fun hne => absurd hne (by simp)⟩ <;>
        simp [resolveFetch, h, boundsOfCoords]

/-- A response whose single event converts cleanly. -/
def respGood : EventsResponse := ⟨[evGood]⟩

/-- A response whose single event has an unparseable date. -/
def respBad : EventsResponse := ⟨[evBadDate]⟩

/-- Claim C8, counterexample: a successful fetch (`ok respBad`) whose batch
throws during conversion does not replace the data source — the previously
displayed feature set (non-empty here) stays, and an error message is set
instead — so the claim's unconditional "on every successful fetch the data
source is fully replaced" fails. -/
theorem c8_counterexample_bad_date_batch :
    resolveFetch stW (Except.ok respBad)
        = { stW with errorMsg := some "Invalid time value", loading := false }
      ∧ stW.sourceFeatures ≠ [] :=
  ⟨rfl, by decide⟩

/-- Claim C8, witness: the amended statement instantiated on a clean
one-event batch over a state with prior data. -/
theorem c8_success_replaces_and_fits_witness :
    (resolveFetch stW (Except.ok respGood)).sourceFeatures
        = (normalizeEvents respGood.events).toOption.getD []
      ∧ (resolveFetch stW (Except.ok respGood)).viewport
        = Viewport.fitted
            ((boundsOfCoords (((normalizeEvents respGood.events).toOption.getD []).map
                (fun f => lngLatOf f.coordinates))).getD ⟨0, 0, 0, 0⟩) 40 800 :=
  ⟨(c8_success_replaces_and_fits stW respGood _ rfl).1,
   (c8_success_replaces_and_fits stW respGood _ rfl).2.2.1 (by decide)⟩
